import Mathlib

/-!
# Verification of the nav-tracker navigation statistics service

Shallow embedding of the repository's core: the `pkg/models` event
validation/normalization (`Validate`, `NormalizeURL`, `SetDefaults`,
file `pkg/models`, full variant) and the full in-memory
`NavigationTracker` store (`RecordEvent`, `GetDistinctVisitors`,
`GetVisitorStats`, `GetDetailedURLStats`, `GetSystemMetrics`,
`performCleanup`, `shouldCleanup`, `Reset`, `UpdateConfiguration`).

Modelling conventions:
* Go maps are association lists with unique keys (uniqueness is proved as
  an invariant where needed); iteration-order-dependent behaviour is not
  relied on by any theorem.
* `time.Time` values are `Nat` nanoseconds since the Unix epoch; the Go
  zero time is `0` (`IsZero` becomes `= 0`).  Where Go subtracts a
  duration (`time.Now().Add(-24h)`) the comparison is carried out in
  `Int` so no truncation differs from Go.
* `time.Now()` and `runtime.ReadMemStats` are environment inputs: each
  operation takes the observed time `now` (one per call) and the
  observed allocation figure as explicit parameters.
* Go `int`/`int64` counters are `Nat`: they are only ever incremented
  once per recorded event, so 2^63 wraparound is out of reach of any
  behaviour discussed here.
* Strings are Lean `String`; Go indexes bytes while Lean indexes
  characters.  The two coincide on ASCII data, and every concrete input
  used below is ASCII.  `strings.ToLower` is modelled by the ASCII
  `String.toLower`.
-/

namespace NavTracker

/-! ## Character helpers shared by the net/url model and validation -/

def isAsciiLetter (c : Char) : Bool :=
  ('a' ≤ c && c ≤ 'z') || ('A' ≤ c && c ≤ 'Z')

def isAsciiDigit (c : Char) : Bool :=
  '0' ≤ c && c ≤ '9'

def isAlphaNumChar (c : Char) : Bool :=
  isAsciiLetter c || isAsciiDigit c

def isHexDigit (c : Char) : Bool :=
  isAsciiDigit c || ('a' ≤ c && c ≤ 'f') || ('A' ≤ c && c ≤ 'F')

def hexVal (c : Char) : Nat :=
  if isAsciiDigit c then c.toNat - 48
  else if 'a' ≤ c then c.toNat - 87
  else c.toNat - 55

def hexDigitUpper (n : Nat) : Char :=
  if n < 10 then Char.ofNat (48 + n) else Char.ofNat (55 + n)

/-- `%XX` encoding of one (ASCII) character, uppercase hex, as in Go's
`escape`. -/
def percentEnc (c : Char) : List Char :=
  ['%', hexDigitUpper (c.toNat / 16 % 16), hexDigitUpper (c.toNat % 16)]

/-! ## Model of the parts of Go `net/url` used by the repository

`Validate` calls `url.ParseRequestURI`; `NormalizeURL` calls
`url.Parse`, mutates the parsed components, and re-serializes with
`URL.String()`; the query re-encoding goes through
`URL.Query().Encode()` (that is, `ParseQuery` + `Values.Encode`).
These definitions model the success/failure behaviour and the resulting
components, translated from the Go standard library (`net/url/url.go`), restricted
to the fields the repository reads or writes (the `User` field and the
IPv6 zone refinement are not modelled; no input in this file uses
them). -/

structure GoURL where
  scheme : String := ""
  opq : String := ""
  host : String := ""
  path : String := ""
  rawQuery : String := ""
  fragment : String := ""
  forceQuery : Bool := false
  omitHost : Bool := false
deriving Repr, DecidableEq

/-! Structural-recursion replacements for the core `String` prefix and
suffix operations (the core versions recurse on byte positions with a
well-founded measure, which the kernel cannot evaluate; these operate
on the character list and agree with the Go byte-level operations on
the ASCII data handled here). -/

def listStartsWith : List Char → List Char → Bool
  | _, [] => true
  | [], _ :: _ => false
  | c :: t, d :: u => c == d && listStartsWith t u

def strStartsWith (s p : String) : Bool :=
  listStartsWith s.data p.data

def strEndsWith (s p : String) : Bool :=
  listStartsWith s.data.reverse p.data.reverse

def strDrop (s : String) (n : Nat) : String :=
  String.mk (s.data.drop n)

def strDropRight (s : String) (n : Nat) : String :=
  String.mk (s.data.take (s.data.length - n))

def strToLower (s : String) : String :=
  String.mk (s.data.map Char.toLower)

/-- `stringContainsCTLByte` from net/url. -/
def containsCTL (s : String) : Bool :=
  s.data.any fun c => c.val < 32 || c.val == 127

/-- Split at the first occurrence of `c`: returns (before, after, found),
Go's `strings.Cut`. -/
def cutChar (c : Char) : List Char → List Char × List Char × Bool
  | [] => ([], [], false)
  | x :: t =>
    if x == c then ([], t, true)
    else
      let r := cutChar c t
      (x :: r.1, r.2.1, r.2.2)

def lastIndexOfChar (c : Char) : List Char → Option Nat
  | [] => none
  | x :: t =>
    match lastIndexOfChar c t with
    | some i => some (i + 1)
    | none => if x == c then some 0 else none

def isSchemeTailChar (c : Char) : Bool :=
  isAsciiDigit c || c == '+' || c == '-' || c == '.'

/-- `getScheme` from net/url; `none` is the "missing protocol scheme"
error, `some (scheme, rest)` mirrors the Go return. -/
def getSchemeCore (orig : String) : List Char → List Char → Nat → Option (String × String)
  | [], _, _ => some ("", orig)
  | c :: rest, acc, i =>
    if isAsciiLetter c then getSchemeCore orig rest (c :: acc) (i + 1)
    else if isSchemeTailChar c then
      if i == 0 then some ("", orig) else getSchemeCore orig rest (c :: acc) (i + 1)
    else if c == ':' then
      if i == 0 then none else some (String.mk acc.reverse, String.mk rest)
    else some ("", orig)

def getScheme (s : String) : Option (String × String) :=
  getSchemeCore s s.data [] 0

/-- Percent-decoding as in net/url `unescape` for the path, fragment,
userinfo and query modes: the only failure is a malformed `%XX`
sequence; in query mode (`plusToSpace`) `+` decodes to a space. -/
def unescapeCore (plusToSpace : Bool) : List Char → Option (List Char)
  | [] => some []
  | '%' :: rest =>
    match rest with
    | a :: b :: t =>
      if isHexDigit a && isHexDigit b then
        (unescapeCore plusToSpace t).map (Char.ofNat (16 * hexVal a + hexVal b) :: ·)
      else none
    | _ => none
  | '+' :: t =>
    (unescapeCore plusToSpace t).map ((if plusToSpace then ' ' else '+') :: ·)
  | c :: t => (unescapeCore plusToSpace t).map (c :: ·)

/-- The characters `shouldEscape` leaves unescaped in host mode
(alphanumerics are handled separately). -/
def isHostExtraChar (c : Char) : Bool :=
  "-._~!$&'()*+,;=:[]<>\"".data.contains c

def hostCharOk (c : Char) : Bool :=
  isAlphaNumChar c || isHostExtraChar c

/-- net/url `unescape` in host mode: also rejects raw ASCII characters
that would need escaping, and `%XX` escapes of ASCII bytes other than
`%25`. -/
def unescapeHostCore : List Char → Option (List Char)
  | [] => some []
  | '%' :: rest =>
    match rest with
    | a :: b :: t =>
      if isHexDigit a && isHexDigit b then
        if hexVal a < 8 && !(a == '2' && b == '5') then none
        else (unescapeHostCore t).map (Char.ofNat (16 * hexVal a + hexVal b) :: ·)
      else none
    | _ => none
  | c :: t =>
    if c.val < 128 && !hostCharOk c then none
    else (unescapeHostCore t).map (c :: ·)

def validOptionalPort (p : String) : Bool :=
  p == "" || (strStartsWith p ":" && (strDrop p 1).data.all isAsciiDigit)

/-- net/url `parseHost` (IPv6 zone handling simplified to plain host
unescaping; no theorem below exercises bracketed hosts). -/
def parseHost (host : String) : Option String :=
  if strStartsWith host "[" then
    match lastIndexOfChar ']' host.data with
    | none => none
    | some i =>
      if validOptionalPort (String.mk (host.data.drop (i + 1))) then
        (unescapeHostCore host.data).map String.mk
      else none
  else
    match lastIndexOfChar ':' host.data with
    | some i =>
      if validOptionalPort (String.mk (host.data.drop i)) then
        (unescapeHostCore host.data).map String.mk
      else none
    | none => (unescapeHostCore host.data).map String.mk

def isUserinfoChar (c : Char) : Bool :=
  isAlphaNumChar c || "-._:~!$&'()*+,;=%@".data.contains c

def validUserinfo (s : String) : Bool :=
  s.data.all isUserinfoChar

/-- net/url `parseAuthority`: split userinfo at the last `@`, validate
it, then parse the host. -/
def parseAuthority (authority : String) : Option String :=
  match lastIndexOfChar '@' authority.data with
  | none => parseHost authority
  | some i =>
    let userinfo := String.mk (authority.data.take i)
    if validUserinfo userinfo && (unescapeCore false userinfo.data).isSome then
      parseHost (String.mk (authority.data.drop (i + 1)))
    else none

/-- net/url `parse(rawURL, viaRequest)`: `none` is any parse error.
Follows the Go control flow: CTL check, empty check, `*`, scheme split,
query split (with the `ForceQuery` special case), the rooted/opaque
branch, authority parsing, and `setPath` (percent-escape validation). -/
def parseCore (rawURL : String) (viaRequest : Bool) : Option GoURL :=
  if containsCTL rawURL then none
  else if rawURL == "" && viaRequest then none
  else if rawURL == "*" then some { path := "*" }
  else
    match getScheme rawURL with
    | none => none
    | some (scheme0, rest0) =>
      let scheme := strToLower scheme0
      let cutQ := cutChar '?' rest0.data
      let forceQ := strEndsWith rest0 "?" && !((strDropRight rest0 1).data.contains '?')
      let rest1 := if forceQ then strDropRight rest0 1 else String.mk cutQ.1
      let rawQuery := if forceQ then "" else String.mk cutQ.2.1
      if !(strStartsWith rest1 "/") then
        if scheme != "" then
          some { scheme := scheme, opq := rest1, rawQuery := rawQuery, forceQuery := forceQ }
        else if viaRequest then none
        else
          let seg := (cutChar '/' rest1.data).1
          if seg.contains ':' then none
          else
            match unescapeCore false rest1.data with
            | none => none
            | some p =>
              some { scheme := scheme, path := String.mk p, rawQuery := rawQuery,
                     forceQuery := forceQ }
      else
        if (scheme != "" || (!viaRequest && !(strStartsWith rest1 "///"))) &&
            strStartsWith rest1 "//" then
          let after := (strDrop rest1 2).data
          let cutA := cutChar '/' after
          let authority := String.mk cutA.1
          let rest2 : List Char := if cutA.2.2 then '/' :: cutA.2.1 else []
          match parseAuthority authority with
          | none => none
          | some host =>
            match unescapeCore false rest2 with
            | none => none
            | some p =>
              some { scheme := scheme, host := host, path := String.mk p,
                     rawQuery := rawQuery, forceQuery := forceQ }
        else
          match unescapeCore false rest1.data with
          | none => none
          | some p =>
            some { scheme := scheme, path := String.mk p, rawQuery := rawQuery,
                   forceQuery := forceQ, omitHost := scheme != "" }

/-- `url.ParseRequestURI`. -/
def parseRequestURIGo (s : String) : Option GoURL :=
  parseCore s true

/-- `url.Parse`: cut the fragment at the first `#`, parse the rest with
`viaRequest = false`, then unescape and attach the fragment. -/
def urlParseGo (s : String) : Option GoURL :=
  let cutF := cutChar '#' s.data
  match parseCore (String.mk cutF.1) false with
  | none => none
  | some u =>
    if cutF.2.2 then
      match unescapeCore false cutF.2.1 with
      | none => none
      | some f => some { u with fragment := String.mk f }
    else some u

/-! ### Serialization: `URL.String()` -/

def isPathSafeChar (c : Char) : Bool :=
  isAlphaNumChar c || "-_.~$&+,/:;=@".data.contains c

def escapePath (s : String) : String :=
  String.mk (s.data.flatMap fun c => if isPathSafeChar c then [c] else percentEnc c)

def escapeHost (s : String) : String :=
  String.mk (s.data.flatMap fun c => if hostCharOk c then [c] else percentEnc c)

def isFragmentSafeChar (c : Char) : Bool :=
  isAlphaNumChar c || "-_.~$&+,/:;=?@!()*".data.contains c

def escapeFragment (s : String) : String :=
  String.mk (s.data.flatMap fun c => if isFragmentSafeChar c then [c] else percentEnc c)

/-- `QueryEscape`. -/
def queryEscape (s : String) : String :=
  String.mk (s.data.flatMap fun c =>
    if isAlphaNumChar c || "-_.~".data.contains c then [c]
    else if c == ' ' then ['+'] else percentEnc c)

def querySuffix (u : GoURL) : String :=
  if u.forceQuery || u.rawQuery != "" then "?" ++ u.rawQuery else ""

def fragSuffix (u : GoURL) : String :=
  if u.fragment != "" then "#" ++ escapeFragment u.fragment else ""

/-- `URL.String()` (no `User` field). -/
def urlString (u : GoURL) : String :=
  let schemePart := if u.scheme != "" then u.scheme ++ ":" else ""
  if u.opq != "" then schemePart ++ u.opq ++ querySuffix u ++ fragSuffix u
  else
    let authPart :=
      if u.scheme != "" || u.host != "" then
        if u.omitHost && u.host == "" then ""
        else (if u.host != "" || u.path != "" then "//" else "") ++ escapeHost u.host
      else ""
    let p := escapePath u.path
    let slashFix := if p != "" && !(strStartsWith p "/") && u.host != "" then "/" else ""
    let dotFix :=
      if schemePart ++ authPart ++ slashFix == "" then
        if ((cutChar '/' p.data).1).contains ':' then "./" else ""
      else ""
    schemePart ++ authPart ++ slashFix ++ dotFix ++ p ++ querySuffix u ++ fragSuffix u

/-! ### Query canonicalization: `ParseQuery` and `Values.Encode` -/

/-- `url.Values` as an insertion-ordered association from keys to the
values recorded for that key (Go's `map[string][]string`; `Encode`
sorts the keys, so the insertion order of this list is irrelevant to
every result below). -/
def valuesAdd (k v : String) : List (String × List String) → List (String × List String)
  | [] => [(k, [v])]
  | (k', vs) :: t =>
    if k' == k then (k', vs ++ [v]) :: t else (k', vs) :: valuesAdd k v t

/-- One pass of Go `ParseQuery`'s loop; components containing `;`,
empty components, and components with invalid escapes are skipped
(`url.Query()` discards the error). -/
def parseQueryCore (fuel : Nat) (q : List Char) (acc : List (String × List String)) :
    List (String × List String) :=
  match fuel with
  | 0 => acc
  | fuel + 1 =>
    match q with
    | [] => acc
    | _ =>
      let cutA := cutChar '&' q
      let comp := cutA.1
      let acc' :=
        if comp.contains ';' then acc
        else if comp.isEmpty then acc
        else
          let cutE := cutChar '=' comp
          match unescapeCore true cutE.1, unescapeCore true cutE.2.1 with
          | some k, some v => valuesAdd (String.mk k) (String.mk v) acc
          | _, _ => acc
      parseQueryCore fuel cutA.2.1 acc'

def parseQueryGo (s : String) : List (String × List String) :=
  parseQueryCore (s.data.length + 1) s.data []

/-- Go's byte-wise string order (`s <= t` as `sort.Strings` uses it),
on the character lists; identical to the byte order on ASCII data. -/
def listCharLe : List Char → List Char → Bool
  | [], _ => true
  | _ :: _, [] => false
  | c :: t, d :: u =>
    if c.val.toNat = d.val.toNat then listCharLe t u
    else c.val.toNat < d.val.toNat

def strLe (a b : String) : Bool :=
  listCharLe a.data b.data

/-- Insertion sort by `strLe`: `sort.Strings` applied to the key set
(the keys are unique, so the sorted sequence is unique and any correct
sort produces this one). -/
def insertSorted (s : String) : List String → List String
  | [] => [s]
  | x :: t => if strLe s x then s :: x :: t else x :: insertSorted s t

def sortStrings : List String → List String
  | [] => []
  | x :: t => insertSorted x (sortStrings t)

def lookupValues (k : String) : List (String × List String) → List String
  | [] => []
  | (k', vs) :: t => if k' == k then vs else lookupValues k t

/-- `Values.Encode`: keys in sorted order, each key's values in
recording order, `k=v` pairs joined by `&`, both sides query-escaped. -/
def encodeValues (vs : List (String × List String)) : String :=
  String.intercalate "&"
    ((sortStrings (vs.map Prod.fst)).flatMap fun k =>
      (lookupValues k vs).map fun v => queryEscape k ++ "=" ++ queryEscape v)

/-- `parsedURL.Query().Encode()`. -/
def goEncodeQuery (s : String) : String :=
  encodeValues (parseQueryGo s)

/-! ## `pkg/models`: events, validation, normalization, defaults -/

structure NavigationEvent where
  visitorID : String := ""
  url : String := ""
  timestamp : Nat := 0
  userAgent : String := ""
  referrer : String := ""
  sessionID : String := ""
  eventID : String := ""
deriving Repr, DecidableEq

structure VisitorStats where
  url : String := ""
  distinctVisitors : Nat := 0
  totalPageViews : Nat := 0
  lastUpdated : Nat := 0
  firstVisit : Nat := 0
  lastVisit : Nat := 0
deriving Repr, DecidableEq

structure Configuration where
  port : String := ""
  maxMemoryUsage : Nat := 0
  cleanupInterval : Nat := 0
  maxURLs : Nat := 0
  maxVisitorsPerURL : Nat := 0
  enableMetrics : Bool := false
  enableDetailedStats : Bool := false
deriving Repr, DecidableEq

def minVisitorIDLength : Nat := 1
def maxVisitorIDLength : Nat := 255
def maxURLLength : Nat := 2048
def maxUserAgentLength : Nat := 500
def maxReferrerLength : Nat := 2048

/-- `visitorIDRegex`: one or more of `[a-zA-Z0-9_-]`. -/
def isVisitorIDChar (c : Char) : Bool :=
  isAlphaNumChar c || c == '_' || c == '-'

def visitorIDMatches (s : String) : Bool :=
  !s.isEmpty && s.data.all isVisitorIDChar

/-- The visitor-id items of `Validate`'s error list (the
`if / else if / else if` chain). -/
def visitorIDErrors (e : NavigationEvent) : List String :=
  if e.visitorID == "" then ["visitor_id is required"]
  else if e.visitorID.length < minVisitorIDLength ||
      e.visitorID.length > maxVisitorIDLength then
    ["visitor_id must be between 1 and 255 characters"]
  else if !visitorIDMatches e.visitorID then
    ["visitor_id contains invalid characters (only alphanumeric, underscore, and dash allowed)"]
  else []

def urlErrors (e : NavigationEvent) : List String :=
  if e.url == "" then ["url is required"]
  else if e.url.length > maxURLLength then
    ["url exceeds maximum length of 2048 characters"]
  else if (parseRequestURIGo e.url).isNone then ["url is not a valid URI"]
  else []

def userAgentErrors (e : NavigationEvent) : List String :=
  if e.userAgent != "" && e.userAgent.length > maxUserAgentLength then
    ["user_agent exceeds maximum length of 500 characters"]
  else []

def referrerErrors (e : NavigationEvent) : List String :=
  if e.referrer != "" && e.referrer.length > maxReferrerLength then
    ["referrer exceeds maximum length of 2048 characters"]
  else []

def validationErrors (e : NavigationEvent) : List String :=
  visitorIDErrors e ++ urlErrors e ++ userAgentErrors e ++ referrerErrors e

/-- `NavigationEvent.Validate`: `none` is the nil error; `some msg` joins
the collected reasons. -/
def validate (e : NavigationEvent) : Option String :=
  match validationErrors e with
  | [] => none
  | errs => some ("validation failed: " ++ String.intercalate "; " errs)

/-- The component rewriting done by `NormalizeURL` between `url.Parse`
and `URL.String()`: drop the fragment, canonically re-encode the query,
lower-case scheme and host, strip one trailing slash unless the path is
exactly `/`.  The path is otherwise untouched (no `ToLower`). -/
def normalizeURLCore (u : GoURL) : GoURL :=
  let u1 := { u with fragment := "" }
  let u2 := { u1 with rawQuery := goEncodeQuery u1.rawQuery }
  let u3 := { u2 with scheme := strToLower u2.scheme }
  let u4 := { u3 with host := strToLower u3.host }
  { u4 with
    path := if u4.path != "/" && strEndsWith u4.path "/" then strDropRight u4.path 1
            else u4.path }

/-- `NavigationEvent.NormalizeURL` as a function on the URL string: an
empty URL or a `url.Parse` failure leaves the string unchanged
(`NormalizeURL` returns early in both cases). -/
def normalizeURLString (s : String) : String :=
  if s == "" then s
  else
    match urlParseGo s with
    | none => s
    | some u => urlString (normalizeURLCore u)

def normalizeURLEvent (e : NavigationEvent) : NavigationEvent :=
  { e with url := normalizeURLString e.url }

def nsPerSecond : Nat := 1000000000

/-- `generateEventID`: current `UnixNano` and `Unix` joined into an
informational identifier. -/
def generateEventID (now : Nat) : String :=
  "evt_" ++ toString now ++ "_" ++ toString (now / nsPerSecond)

/-- `NavigationEvent.SetDefaults`. -/
def setDefaults (e : NavigationEvent) (now : Nat) : NavigationEvent :=
  { e with
    timestamp := if e.timestamp == 0 then now else e.timestamp,
    eventID := if e.eventID == "" then generateEventID now else e.eventID }

/-! ## Association-list model of Go's string-keyed maps -/

def mapLookup {α : Type} (k : String) : List (String × α) → Option α
  | [] => none
  | (k', v) :: t => if k' == k then some v else mapLookup k t

/-- `m[k] = v`: replace the entry if the key is present, append it
otherwise. -/
def mapInsert {α : Type} (k : String) (v : α) : List (String × α) → List (String × α)
  | [] => [(k, v)]
  | (k', v') :: t =>
    if k' == k then (k, v) :: t else (k', v') :: mapInsert k v t

def keysOf {α : Type} (l : List (String × α)) : List String :=
  l.map Prod.fst

/-! ## `pkg/storage`: the full NavigationTracker -/

structure VisitorInfo where
  visitorID : String := ""
  firstVisit : Nat := 0
  lastVisit : Nat := 0
  visitCount : Nat := 0
  userAgent : String := ""
  referrer : String := ""
deriving Repr, DecidableEq

structure URLStats where
  url : String := ""
  visitors : List (String × VisitorInfo) := []
  totalPageViews : Nat := 0
  distinctVisitors : Nat := 0
  firstVisit : Nat := 0
  lastVisit : Nat := 0
  createdAt : Nat := 0
  updatedAt : Nat := 0
deriving Repr, DecidableEq

structure SystemMetrics where
  totalEvents : Nat := 0
  totalUniqueURLs : Nat := 0
  totalUniqueVisitors : Nat := 0
  startTime : Nat := 0
  lastEventTime : Nat := 0
deriving Repr, DecidableEq

/-- `models.SystemStats` as returned by `GetSystemMetrics` (uptime kept
as start time, memory usage as the sampled allocation figure). -/
structure SystemStats where
  totalEvents : Nat := 0
  totalUniqueURLs : Nat := 0
  totalUniqueVisitors : Nat := 0
  memoryUsage : Nat := 0
  startTime : Nat := 0
  lastEventTime : Nat := 0
deriving Repr, DecidableEq

structure NavigationTracker where
  urlStats : List (String × URLStats) := []
  globalVisitors : List String := []
  metrics : SystemMetrics := {}
  config : Configuration := {}
deriving Repr, DecidableEq

/-- The configuration literal in `NewNavigationTracker`. -/
def defaultConfig : Configuration :=
  { port := "8080"
    maxMemoryUsage := 100 * 1024 * 1024
    cleanupInterval := 5 * 60 * nsPerSecond
    maxURLs := 10000
    maxVisitorsPerURL := 100000
    enableMetrics := true
    enableDetailedStats := true }

/-- `NewNavigationTracker` (the cleanup goroutine itself is modelled
separately; see the lock-discipline section). -/
def newTracker (start : Nat) : NavigationTracker :=
  { urlStats := []
    globalVisitors := []
    metrics := { startTime := start }
    config := defaultConfig }

/-- `shouldCleanup`: the sampled `m.Alloc` exceeds the configured
maximum, or more URLs are tracked than allowed. -/
def shouldCleanup (nt : NavigationTracker) (memAlloc : Nat) : Bool :=
  memAlloc > nt.config.maxMemoryUsage || nt.urlStats.length > nt.config.maxURLs

def nsPerDay : Nat := 24 * 60 * 60 * nsPerSecond

/-- Eviction test of `performCleanup` for one aggregate: fewer than two
distinct visitors and a last visit strictly before `now - 24h`
(computed in `Int`, as Go's `time` arithmetic never truncates). -/
def evictable (st : URLStats) (now : Nat) : Bool :=
  st.distinctVisitors < 2 && ((st.lastVisit : Int) < (now : Int) - (nsPerDay : Int))

/-- `performCleanup`: delete every evictable aggregate; nothing else
changes (`runtime.GC()` has no observable state). -/
def performCleanup (nt : NavigationTracker) (now : Nat) : NavigationTracker :=
  { nt with urlStats := nt.urlStats.filter fun p => !evictable p.2 now }

/-- The aggregate literal `RecordEvent` creates lazily for a URL seen
for the first time. -/
def freshURLStats (url : String) (now : Nat) : URLStats :=
  { url := url, visitors := [], createdAt := now, updatedAt := now }

def lookupOrCreate (nt : NavigationTracker) (url : String) (now : Nat) : URLStats :=
  match mapLookup url nt.urlStats with
  | some st => st
  | none => freshURLStats url now

/-- The visitor record `RecordEvent` creates for a first visit. -/
def newVisitorInfo (e : NavigationEvent) (now : Nat) : VisitorInfo :=
  { visitorID := e.visitorID, firstVisit := now, lastVisit := now, visitCount := 1,
    userAgent := e.userAgent, referrer := e.referrer }

/-- The repeat-visit update: bump the count and the last-visit time;
user agent and referrer are overwritten only by non-empty values. -/
def revisitVisitorInfo (vi : VisitorInfo) (e : NavigationEvent) (now : Nat) : VisitorInfo :=
  { vi with
    lastVisit := now,
    visitCount := vi.visitCount + 1,
    userAgent := if e.userAgent != "" then e.userAgent else vi.userAgent,
    referrer := if e.referrer != "" then e.referrer else vi.referrer }

/-- Step 4 of `RecordEvent`: create or update the visitor entry inside
the aggregate, maintaining the redundant distinct-visitor counter. -/
def stepVisitor (st : URLStats) (e : NavigationEvent) (now : Nat) : URLStats :=
  match mapLookup e.visitorID st.visitors with
  | none =>
    { st with
      visitors := mapInsert e.visitorID (newVisitorInfo e now) st.visitors,
      distinctVisitors := st.distinctVisitors + 1 }
  | some vi =>
    { st with visitors := mapInsert e.visitorID (revisitVisitorInfo vi e now) st.visitors }

/-- Step 5 of `RecordEvent`: page-view counter and aggregate
timestamps. -/
def finishStats (st : URLStats) (now : Nat) : URLStats :=
  { st with
    totalPageViews := st.totalPageViews + 1,
    updatedAt := now,
    firstVisit := if st.firstVisit == 0 then now else st.firstVisit,
    lastVisit := now }

/-- The global-visitor-set update fires only when the visitor is new
for this URL and not yet in the global set (the nested `if` of step
4). -/
def isGloballyNew (nt : NavigationTracker) (e : NavigationEvent) (st0 : URLStats) : Bool :=
  (mapLookup e.visitorID st0.visitors).isNone && !(nt.globalVisitors.contains e.visitorID)

/-- Steps 3-6 of `RecordEvent` (the write applied after validation,
normalization, defaulting and the opportunistic cleanup).  `e` is the
already-normalized event. -/
def applyEvent (nt : NavigationTracker) (e : NavigationEvent) (now : Nat) :
    NavigationTracker :=
  let stats0 := lookupOrCreate nt e.url now
  let st2 := finishStats (stepVisitor stats0 e now) now
  let urlStats' := mapInsert e.url st2 nt.urlStats
  let gNew := isGloballyNew nt e stats0
  { nt with
    urlStats := urlStats',
    globalVisitors :=
      if gNew then e.visitorID :: nt.globalVisitors else nt.globalVisitors,
    metrics := { nt.metrics with
      totalUniqueVisitors :=
        if gNew then nt.metrics.totalUniqueVisitors + 1
        else nt.metrics.totalUniqueVisitors,
      totalEvents := nt.metrics.totalEvents + 1,
      lastEventTime := now,
      totalUniqueURLs := urlStats'.length } }

/-- Result of `RecordEvent`: the new store, the caller's event as left
by the call (Go mutates it through the pointer), and the returned
error. -/
structure RecordResult where
  tracker : NavigationTracker
  event : NavigationEvent
  error : Option String
deriving Repr, DecidableEq

/-- `RecordEvent`: validate, normalize and default the event, run the
opportunistic cleanup if due, then apply the write.  `now` is the time
observed by this call and `memAlloc` the `runtime.MemStats.Alloc`
sample read by `shouldCleanup`. -/
def recordEvent (nt : NavigationTracker) (e : NavigationEvent) (now memAlloc : Nat) :
    RecordResult :=
  match validate e with
  | some msg => { tracker := nt, event := e, error := some ("invalid event: " ++ msg) }
  | none =>
    let e1 := setDefaults (normalizeURLEvent e) now
    let nt1 := if shouldCleanup nt memAlloc then performCleanup nt now else nt
    { tracker := applyEvent nt1 e1 now, event := e1, error := none }

/-- `GetDistinctVisitors`. -/
def getDistinctVisitors (nt : NavigationTracker) (url : String) : Nat :=
  match mapLookup url nt.urlStats with
  | some st => st.distinctVisitors
  | none => 0

/-- `GetVisitorStats`; `now` is the `time.Now()` used for `LastUpdated`
in the absent branch. -/
def getVisitorStats (nt : NavigationTracker) (url : String) (now : Nat) : VisitorStats :=
  match mapLookup url nt.urlStats with
  | some st =>
    { url := st.url, distinctVisitors := st.distinctVisitors,
      totalPageViews := st.totalPageViews, lastUpdated := st.updatedAt,
      firstVisit := st.firstVisit, lastVisit := st.lastVisit }
  | none =>
    { url := url, distinctVisitors := 0, totalPageViews := 0, lastUpdated := now }

/-- The deep copy `GetDetailedURLStats` makes of each visitor record. -/
def copyVisitor (v : VisitorInfo) : VisitorInfo :=
  { visitorID := v.visitorID, firstVisit := v.firstVisit, lastVisit := v.lastVisit,
    visitCount := v.visitCount, userAgent := v.userAgent, referrer := v.referrer }

/-- `GetDetailedURLStats`: a full copied snapshot, or `nil` (`none`) for
an absent URL. -/
def getDetailedURLStats (nt : NavigationTracker) (url : String) : Option URLStats :=
  match mapLookup url nt.urlStats with
  | some st =>
    some { url := st.url,
           visitors := st.visitors.map fun p => (p.1, copyVisitor p.2),
           totalPageViews := st.totalPageViews,
           distinctVisitors := st.distinctVisitors,
           firstVisit := st.firstVisit, lastVisit := st.lastVisit,
           createdAt := st.createdAt, updatedAt := st.updatedAt }
  | none => none

/-- `GetSystemMetrics`; `memAlloc` is this call's `m.Alloc` sample. -/
def getSystemMetrics (nt : NavigationTracker) (memAlloc : Nat) : SystemStats :=
  { totalEvents := nt.metrics.totalEvents,
    totalUniqueURLs := nt.metrics.totalUniqueURLs,
    totalUniqueVisitors := nt.metrics.totalUniqueVisitors,
    memoryUsage := memAlloc,
    startTime := nt.metrics.startTime,
    lastEventTime := nt.metrics.lastEventTime }

/-- `Reset`: discard all aggregates, the global visitor set and the
metrics; the configuration survives. -/
def resetTracker (nt : NavigationTracker) (now : Nat) : NavigationTracker :=
  { urlStats := [], globalVisitors := [],
    metrics := { startTime := now }, config := nt.config }

/-- `UpdateConfiguration` (the scheduler restart has no effect on the
aggregate state). -/
def updateConfiguration (nt : NavigationTracker) (c : Configuration) :
    NavigationTracker :=
  { nt with config := c }

/-! ## Association-list lemmas -/

theorem mapLookup_insert {α : Type} (k k' : String) (v : α) (l : List (String × α)) :
    mapLookup k' (mapInsert k v l) = if k = k' then some v else mapLookup k' l := by
  induction l with
  | nil => by_cases h : k = k' <;> simp [mapInsert, mapLookup, h]
  | cons p t ih =>
    obtain ⟨a, b⟩ := p
    by_cases h1 : a = k
    · subst h1
      by_cases h2 : a = k' <;> simp [mapInsert, mapLookup, h2]
    · by_cases h2 : a = k'
      · subst h2
        have hk : k ≠ a := fun hh => h1 hh.symm
        simp [mapInsert, mapLookup, h1, hk]
      · simp [mapInsert, mapLookup, h1, h2, ih]

theorem mem_mapInsert {α : Type} {p : String × α} {k : String} {v : α}
    {l : List (String × α)} (h : p ∈ mapInsert k v l) : p = (k, v) ∨ p ∈ l := by
  induction l with
  | nil => simpa [mapInsert] using h
  | cons q t ih =>
    obtain ⟨a, b⟩ := q
    by_cases h1 : a = k
    · rw [show mapInsert k v ((a, b) :: t) = (k, v) :: t by simp [mapInsert, h1]] at h
      rcases List.mem_cons.mp h with h | h
      · exact Or.inl h
      · exact Or.inr (List.mem_cons_of_mem _ h)
    · rw [show mapInsert k v ((a, b) :: t) = (a, b) :: mapInsert k v t by
        simp [mapInsert, h1]] at h
      rcases List.mem_cons.mp h with h | h
      · exact Or.inr (by simp [h])
      · rcases ih h with h' | h'
        · exact Or.inl h'
        · exact Or.inr (List.mem_cons_of_mem _ h')

theorem length_mapInsert_absent {α : Type} (k : String) (v : α)
    (l : List (String × α)) (h : mapLookup k l = none) :
    (mapInsert k v l).length = l.length + 1 := by
  induction l with
  | nil => simp [mapInsert]
  | cons q t ih =>
    obtain ⟨a, b⟩ := q
    by_cases h1 : a = k
    · simp [mapLookup, h1] at h
    · simp only [mapLookup, beq_iff_eq] at h
      rw [if_neg h1] at h
      simp [mapInsert, h1, ih h]

theorem length_mapInsert_present {α : Type} (k : String) (v w : α)
    (l : List (String × α)) (h : mapLookup k l = some w) :
    (mapInsert k v l).length = l.length := by
  induction l with
  | nil => simp [mapLookup] at h
  | cons q t ih =>
    obtain ⟨a, b⟩ := q
    by_cases h1 : a = k
    · simp [mapInsert, h1]
    · simp only [mapLookup, beq_iff_eq] at h
      rw [if_neg h1] at h
      simp [mapInsert, h1, ih h]

theorem mapLookup_eq_none_iff {α : Type} {k : String} {l : List (String × α)} :
    mapLookup k l = none ↔ k ∉ keysOf l := by
  induction l with
  | nil => simp [mapLookup, keysOf]
  | cons q t ih =>
    obtain ⟨a, b⟩ := q
    by_cases h1 : a = k
    · simp [mapLookup, keysOf, h1]
    · simp [mapLookup, keysOf, h1, ih, Ne.symm h1]

theorem keysOf_mapInsert_present {α : Type} (k : String) (v : α)
    (l : List (String × α)) (h : (mapLookup k l).isSome) :
    keysOf (mapInsert k v l) = keysOf l := by
  induction l with
  | nil => simp [mapLookup] at h
  | cons q t ih =>
    obtain ⟨a, b⟩ := q
    by_cases h1 : a = k
    · simp [mapInsert, keysOf, h1]
    · simp only [mapLookup, beq_iff_eq] at h
      rw [if_neg h1] at h
      have hih := ih h
      simp only [keysOf] at hih
      simp [mapInsert, keysOf, h1, hih]

theorem keysOf_mapInsert_absent {α : Type} (k : String) (v : α)
    (l : List (String × α)) (h : mapLookup k l = none) :
    keysOf (mapInsert k v l) = keysOf l ++ [k] := by
  induction l with
  | nil => simp [mapInsert, keysOf]
  | cons q t ih =>
    obtain ⟨a, b⟩ := q
    by_cases h1 : a = k
    · simp [mapLookup, h1] at h
    · simp only [mapLookup, beq_iff_eq] at h
      rw [if_neg h1] at h
      have hih := ih h
      simp only [keysOf] at hih
      simp [mapInsert, keysOf, h1, hih]

theorem nodup_keys_mapInsert {α : Type} (k : String) (v : α)
    (l : List (String × α)) (h : (keysOf l).Nodup) :
    (keysOf (mapInsert k v l)).Nodup := by
  cases hl : mapLookup k l with
  | none =>
    rw [keysOf_mapInsert_absent k v l hl]
    have hk : k ∉ keysOf l := mapLookup_eq_none_iff.mp hl
    simp [List.nodup_append, h, hk]
  | some w =>
    rw [keysOf_mapInsert_present k v l (by simp [hl])]
    exact h

theorem mapLookup_mem {α : Type} {k : String} {v : α} {l : List (String × α)}
    (h : mapLookup k l = some v) : (k, v) ∈ l := by
  induction l with
  | nil => simp [mapLookup] at h
  | cons q t ih =>
    obtain ⟨a, b⟩ := q
    by_cases h1 : a = k
    · subst h1
      simp only [mapLookup, beq_self_eq_true, if_true, Option.some.injEq] at h
      simp [h]
    · simp only [mapLookup, beq_iff_eq, h1, if_neg] at h
      exact List.mem_cons_of_mem _ (ih h)

theorem mem_mapLookup_of_nodup {α : Type} {k : String} {v : α}
    {l : List (String × α)} (hnd : (keysOf l).Nodup) (h : (k, v) ∈ l) :
    mapLookup k l = some v := by
  induction l with
  | nil => simp at h
  | cons q t ih =>
    obtain ⟨a, b⟩ := q
    simp only [List.mem_cons, Prod.mk.injEq] at h
    simp only [keysOf, List.map_cons, List.nodup_cons] at hnd
    rcases h with ⟨rfl, rfl⟩ | h
    · simp [mapLookup]
    · have hak : a ≠ k := by
        rintro rfl
        exact hnd.1 (List.mem_map_of_mem Prod.fst h)
      simp only [mapLookup, beq_iff_eq, hak, if_neg]
      exact ih hnd.2 h

theorem mapLookup_filter_some {α : Type} {k : String} {v : α}
    {p : String × α → Bool} {l : List (String × α)} (hnd : (keysOf l).Nodup)
    (h : mapLookup k (l.filter p) = some v) :
    mapLookup k l = some v ∧ p (k, v) = true := by
  have hm := List.mem_filter.mp (mapLookup_mem h)
  exact ⟨mem_mapLookup_of_nodup hnd hm.1, hm.2⟩

/-! ## Well-formedness of reachable tracker states -/

/-- The per-aggregate consistency: unique visitor keys, the redundant
distinct-visitor counter equals the map size, and page views dominate
it. -/
def StatsWF (st : URLStats) : Prop :=
  (keysOf st.visitors).Nodup ∧
  st.distinctVisitors = st.visitors.length ∧
  st.distinctVisitors ≤ st.totalPageViews

def TrackerWF (nt : NavigationTracker) : Prop :=
  (keysOf nt.urlStats).Nodup ∧ ∀ p ∈ nt.urlStats, StatsWF p.2

theorem statsWF_fresh (url : String) (now : Nat) : StatsWF (freshURLStats url now) := by
  simp [StatsWF, freshURLStats, keysOf]

theorem stepVisitor_totalPageViews (st : URLStats) (e : NavigationEvent) (now : Nat) :
    (stepVisitor st e now).totalPageViews = st.totalPageViews := by
  unfold stepVisitor
  split <;> rfl

theorem statsWF_update (st : URLStats) (e : NavigationEvent) (now : Nat)
    (h : StatsWF st) : StatsWF (finishStats (stepVisitor st e now) now) := by
  obtain ⟨hnd, hdv, hle⟩ := h
  unfold stepVisitor
  cases hv : mapLookup e.visitorID st.visitors with
  | none =>
    refine ⟨?_, ?_, ?_⟩
    · simpa [finishStats] using nodup_keys_mapInsert _ _ _ hnd
    · simp [finishStats, length_mapInsert_absent _ _ _ hv, hdv]
    · simp only [finishStats]
      omega
  | some vi =>
    refine ⟨?_, ?_, ?_⟩
    · simpa [finishStats] using nodup_keys_mapInsert _ _ _ hnd
    · simp [finishStats, length_mapInsert_present _ _ _ _ hv, hdv]
    · simp only [finishStats]
      omega

theorem statsWF_lookupOrCreate (nt : NavigationTracker) (url : String) (now : Nat)
    (h : ∀ p ∈ nt.urlStats, StatsWF p.2) : StatsWF (lookupOrCreate nt url now) := by
  unfold lookupOrCreate
  cases hl : mapLookup url nt.urlStats with
  | none => exact statsWF_fresh _ _
  | some st => exact h _ (mapLookup_mem hl)

theorem trackerWF_applyEvent (nt : NavigationTracker) (e : NavigationEvent) (now : Nat)
    (h : TrackerWF nt) : TrackerWF (applyEvent nt e now) := by
  obtain ⟨hnd, hall⟩ := h
  constructor
  · simpa [applyEvent] using nodup_keys_mapInsert _ _ _ hnd
  · intro p hp
    simp only [applyEvent] at hp
    rcases mem_mapInsert hp with h1 | h1
    · subst h1
      exact statsWF_update _ _ _ (statsWF_lookupOrCreate nt e.url now hall)
    · exact hall _ h1

theorem trackerWF_performCleanup (nt : NavigationTracker) (now : Nat)
    (h : TrackerWF nt) : TrackerWF (performCleanup nt now) := by
  obtain ⟨hnd, hall⟩ := h
  constructor
  · exact ((List.filter_sublist _).map Prod.fst).nodup hnd
  · intro p hp
    exact hall _ (List.mem_filter.mp hp).1

theorem trackerWF_newTracker (start : Nat) : TrackerWF (newTracker start) := by
  simp [TrackerWF, newTracker, keysOf]

theorem trackerWF_reset (nt : NavigationTracker) (now : Nat) :
    TrackerWF (resetTracker nt now) := by
  simp [TrackerWF, resetTracker, keysOf]

theorem trackerWF_updateConfiguration (nt : NavigationTracker) (c : Configuration)
    (h : TrackerWF nt) : TrackerWF (updateConfiguration nt c) := h

theorem trackerWF_recordEvent (nt : NavigationTracker) (e : NavigationEvent)
    (now memAlloc : Nat) (h : TrackerWF nt) :
    TrackerWF (recordEvent nt e now memAlloc).tracker := by
  unfold recordEvent
  split
  · exact h
  · show TrackerWF (applyEvent _ _ _)
    apply trackerWF_applyEvent
    split
    · exact trackerWF_performCleanup _ _ h
    · exact h

/-- States reachable from a fresh tracker by the store's mutating
operations (the opportunistic cleanup inside `RecordEvent` is part of
the `record` step; `cleanup` is the standalone eviction pass). -/
inductive Reach : NavigationTracker → Prop
  | init (start : Nat) : Reach (newTracker start)
  | record {nt : NavigationTracker} (e : NavigationEvent) (now memAlloc : Nat) :
      Reach nt → Reach (recordEvent nt e now memAlloc).tracker
  | cleanup {nt : NavigationTracker} (now : Nat) :
      Reach nt → Reach (performCleanup nt now)
  | reset {nt : NavigationTracker} (now : Nat) :
      Reach nt → Reach (resetTracker nt now)
  | config {nt : NavigationTracker} (c : Configuration) :
      Reach nt → Reach (updateConfiguration nt c)

theorem reach_wf {nt : NavigationTracker} (h : Reach nt) : TrackerWF nt := by
  induction h with
  | init start => exact trackerWF_newTracker start
  | record e now memAlloc _ ih => exact trackerWF_recordEvent _ e now memAlloc ih
  | cleanup now _ ih => exact trackerWF_performCleanup _ now ih
  | reset now _ ih => exact trackerWF_reset _ now
  | config c _ ih => exact trackerWF_updateConfiguration _ c ih

/-- The individual state transformations of the store, at the
granularity at which they execute under the write lock: the write phase
of `RecordEvent`, one eviction pass, a reset, a reconfiguration.  A
full `RecordEvent` call is one `apply` step, preceded by a `cleanup`
step when `shouldCleanup` fires. -/
inductive MicroStep : NavigationTracker → NavigationTracker → Prop
  | apply (nt : NavigationTracker) (e : NavigationEvent) (now : Nat) :
      MicroStep nt (applyEvent nt e now)
  | cleanup (nt : NavigationTracker) (now : Nat) :
      MicroStep nt (performCleanup nt now)
  | reset (nt : NavigationTracker) (now : Nat) :
      MicroStep nt (resetTracker nt now)
  | config (nt : NavigationTracker) (c : Configuration) :
      MicroStep nt (updateConfiguration nt c)

/-- A successful `RecordEvent` is exactly a cleanup phase (when due)
followed by a write phase; a failed one leaves the state unchanged. -/
theorem recordEvent_phases (nt : NavigationTracker) (e : NavigationEvent)
    (now memAlloc : Nat) :
    (recordEvent nt e now memAlloc).tracker = nt ∨
    (recordEvent nt e now memAlloc).tracker =
      applyEvent nt (setDefaults (normalizeURLEvent e) now) now ∨
    (recordEvent nt e now memAlloc).tracker =
      applyEvent (performCleanup nt now) (setDefaults (normalizeURLEvent e) now) now := by
  unfold recordEvent
  split
  · exact Or.inl rfl
  · split
    · exact Or.inr (Or.inr rfl)
    · exact Or.inr (Or.inl rfl)

theorem views_mono_applyEvent {nt : NavigationTracker} {e : NavigationEvent}
    {now : Nat} {u : String} {st st' : URLStats}
    (h : mapLookup u nt.urlStats = some st)
    (h' : mapLookup u (applyEvent nt e now).urlStats = some st') :
    st.totalPageViews ≤ st'.totalPageViews := by
  simp only [applyEvent] at h'
  rw [mapLookup_insert] at h'
  by_cases he : e.url = u
  · rw [if_pos he] at h'
    have hst0 : lookupOrCreate nt e.url now = st := by
      simp [lookupOrCreate, he, h]
    cases h'
    rw [hst0, finishStats]
    simp only [stepVisitor_totalPageViews]
    omega
  · rw [if_neg he, h] at h'
    cases h'
    exact le_refl _

theorem views_mono_performCleanup {nt : NavigationTracker} {now : Nat} {u : String}
    {st st' : URLStats} (hnd : (keysOf nt.urlStats).Nodup)
    (h : mapLookup u nt.urlStats = some st)
    (h' : mapLookup u (performCleanup nt now).urlStats = some st') :
    st.totalPageViews ≤ st'.totalPageViews := by
  have hh := (mapLookup_filter_some hnd h').1
  rw [h] at hh
  cases hh
  exact le_refl _

theorem views_mono_microStep {nt nt' : NavigationTracker}
    (hwf : TrackerWF nt) (hstep : MicroStep nt nt') {u : String} {st st' : URLStats}
    (h : mapLookup u nt.urlStats = some st)
    (h' : mapLookup u nt'.urlStats = some st') :
    st.totalPageViews ≤ st'.totalPageViews := by
  cases hstep with
  | apply e now => exact views_mono_applyEvent h h'
  | cleanup now => exact views_mono_performCleanup hwf.1 h h'
  | reset now => simp [resetTracker, mapLookup] at h'
  | config c =>
    rw [show (updateConfiguration nt c).urlStats = nt.urlStats from rfl, h] at h'
    cases h'
    exact le_refl _

/-! ## Unfolding lemmas for `RecordEvent` -/

theorem shouldCleanup_eq_false (nt : NavigationTracker) (memAlloc : Nat)
    (hm : memAlloc ≤ nt.config.maxMemoryUsage)
    (hl : nt.urlStats.length ≤ nt.config.maxURLs) :
    shouldCleanup nt memAlloc = false := by
  simp only [shouldCleanup, Bool.or_eq_false_iff, decide_eq_false_iff_not, Nat.not_lt]
  exact ⟨hm, hl⟩

theorem recordEvent_ok (nt : NavigationTracker) (e : NavigationEvent)
    (now memAlloc : Nat) (hv : validate e = none)
    (hc : shouldCleanup nt memAlloc = false) :
    recordEvent nt e now memAlloc =
      { tracker := applyEvent nt (setDefaults (normalizeURLEvent e) now) now,
        event := setDefaults (normalizeURLEvent e) now,
        error := none } := by
  simp [recordEvent, hv, hc]

theorem recordEvent_err (nt : NavigationTracker) (e : NavigationEvent)
    (now memAlloc : Nat) (hv : (validate e).isSome) :
    (recordEvent nt e now memAlloc).error.isSome ∧
    (recordEvent nt e now memAlloc).tracker = nt ∧
    (recordEvent nt e now memAlloc).event = e := by
  obtain ⟨msg, hm⟩ := Option.isSome_iff_exists.mp hv
  simp [recordEvent, hm]

theorem normalizeURLEvent_fields (e : NavigationEvent) :
    (normalizeURLEvent e).visitorID = e.visitorID ∧
    (normalizeURLEvent e).url = normalizeURLString e.url := ⟨rfl, rfl⟩

theorem setDefaults_fields (e : NavigationEvent) (now : Nat) :
    (setDefaults e now).visitorID = e.visitorID ∧
    (setDefaults e now).url = e.url := ⟨rfl, rfl⟩

/-! ## Shape lemmas for short recording histories -/

theorem applyEvent_fresh (nt : NavigationTracker) (e : NavigationEvent) (now : Nat)
    (hurl : nt.urlStats = []) (hg : nt.globalVisitors = []) :
    ∃ st vi,
      (applyEvent nt e now).urlStats = [(e.url, st)] ∧
      st.visitors = [(e.visitorID, vi)] ∧
      st.distinctVisitors = 1 ∧ st.totalPageViews = 1 ∧ vi.visitCount = 1 ∧
      (applyEvent nt e now).globalVisitors = [e.visitorID] ∧
      (applyEvent nt e now).metrics.totalUniqueVisitors =
        nt.metrics.totalUniqueVisitors + 1 ∧
      (applyEvent nt e now).config = nt.config := by
  refine ⟨finishStats (stepVisitor (freshURLStats e.url now) e now) now,
    newVisitorInfo e now, ?_, ?_, ?_, ?_, ?_, ?_, ?_, rfl⟩ <;>
    simp [applyEvent, lookupOrCreate, stepVisitor, finishStats, freshURLStats,
      isGloballyNew, newVisitorInfo, mapLookup, mapInsert, hurl, hg]

theorem applyEvent_revisit (K V : String) (st : URLStats) (vi : VisitorInfo)
    (nt : NavigationTracker) (e : NavigationEvent) (now : Nat)
    (hurl : nt.urlStats = [(K, st)]) (hvis : st.visitors = [(V, vi)])
    (he : e.url = K) (hev : e.visitorID = V) :
    ∃ st' vi',
      (applyEvent nt e now).urlStats = [(K, st')] ∧
      st'.visitors = [(V, vi')] ∧
      st'.distinctVisitors = st.distinctVisitors ∧
      st'.totalPageViews = st.totalPageViews + 1 ∧
      vi'.visitCount = vi.visitCount + 1 ∧
      (applyEvent nt e now).globalVisitors = nt.globalVisitors ∧
      (applyEvent nt e now).metrics.totalUniqueVisitors =
        nt.metrics.totalUniqueVisitors ∧
      (applyEvent nt e now).config = nt.config := by
  subst he hev
  have hst0 : lookupOrCreate nt e.url now = st := by
    simp [lookupOrCreate, hurl, mapLookup]
  have hvi : mapLookup e.visitorID st.visitors = some vi := by
    simp [hvis, mapLookup]
  refine ⟨finishStats (stepVisitor st e now) now, revisitVisitorInfo vi e now,
    ?_, ?_, ?_, ?_, ?_, ?_, ?_, rfl⟩ <;>
    simp [applyEvent, hst0, stepVisitor, hvi, finishStats, isGloballyNew,
      revisitVisitorInfo, mapLookup, mapInsert, hurl, hvis]

theorem applyEvent_newURL_oldVisitor (KA : String) (stA : URLStats)
    (nt : NavigationTracker) (e : NavigationEvent) (now : Nat)
    (hurl : nt.urlStats = [(KA, stA)]) (hne : e.url ≠ KA)
    (hg : nt.globalVisitors.contains e.visitorID = true) :
    ∃ stB,
      (applyEvent nt e now).urlStats = [(KA, stA), (e.url, stB)] ∧
      stB.distinctVisitors = 1 ∧ stB.totalPageViews = 1 ∧
      (applyEvent nt e now).globalVisitors = nt.globalVisitors ∧
      (applyEvent nt e now).metrics.totalUniqueVisitors =
        nt.metrics.totalUniqueVisitors ∧
      (applyEvent nt e now).config = nt.config := by
  have hKA : KA ≠ e.url := fun hh => hne hh.symm
  have hg' : e.visitorID ∈ nt.globalVisitors := by simpa using hg
  have hst0 : lookupOrCreate nt e.url now = freshURLStats e.url now := by
    simp [lookupOrCreate, hurl, mapLookup, hKA]
  refine ⟨finishStats (stepVisitor (freshURLStats e.url now) e now) now,
    ?_, ?_, ?_, ?_, ?_, rfl⟩ <;>
    simp [applyEvent, hst0, stepVisitor, finishStats, freshURLStats, isGloballyNew,
      newVisitorInfo, mapLookup, mapInsert, hurl, hg', hKA]

/-- `N` successive `RecordEvent` calls, with per-call events, observed
times and sampled allocation figures. -/
def recordSeq (nt : NavigationTracker) (events : Nat → NavigationEvent)
    (times mems : Nat → Nat) : Nat → NavigationTracker
  | 0 => nt
  | n + 1 =>
    (recordEvent (recordSeq nt events times mems n) (events n) (times n) (mems n)).tracker

/-- State shape after recording the same (visitor, URL) pair `N ≥ 1`
times on a fresh tracker when the memory trigger stays quiet: one
aggregate under the normalized URL, one visitor entry, distinct count
1, `N` page views and `N` visits. -/
theorem recordSeq_same_shape (start : Nat) (V U : String)
    (events : Nat → NavigationEvent) (times mems : Nat → Nat)
    (hv : ∀ i, (events i).visitorID = V) (hu : ∀ i, (events i).url = U)
    (hval : ∀ i, validate (events i) = none)
    (hmem : ∀ i, mems i ≤ defaultConfig.maxMemoryUsage) :
    ∀ N, 1 ≤ N →
      ∃ st vi,
        (recordSeq (newTracker start) events times mems N).urlStats =
          [(normalizeURLString U, st)] ∧
        st.visitors = [(V, vi)] ∧
        st.distinctVisitors = 1 ∧ st.totalPageViews = N ∧ vi.visitCount = N ∧
        (recordSeq (newTracker start) events times mems N).globalVisitors = [V] ∧
        (recordSeq (newTracker start) events times mems N).metrics.totalUniqueVisitors
          = 1 ∧
        (recordSeq (newTracker start) events times mems N).config = defaultConfig := by
  intro N
  induction N with
  | zero => omega
  | succ n ih =>
    intro _
    by_cases hn : 1 ≤ n
    · obtain ⟨st, vi, hurl, hvis, hdv, htp, hvc, hg, htuv, hcfg⟩ := ih hn
      set prev := recordSeq (newTracker start) events times mems n with hprev
      have hc : shouldCleanup prev (mems n) = false := by
        apply shouldCleanup_eq_false
        · rw [hcfg]; exact hmem n
        · rw [hcfg, hurl]; simp [defaultConfig]
      have hrec := recordEvent_ok prev (events n) (times n) (mems n) (hval n) hc
      have heU : (setDefaults (normalizeURLEvent (events n)) (times n)).url =
          normalizeURLString U := by
        simp [setDefaults, normalizeURLEvent, hu n]
      have heV : (setDefaults (normalizeURLEvent (events n)) (times n)).visitorID = V := by
        simp [setDefaults, normalizeURLEvent, hv n]
      obtain ⟨st', vi', h1, h2, h3, h4, h5, h6, h7, h8⟩ :=
        applyEvent_revisit (normalizeURLString U) V st vi prev
          (setDefaults (normalizeURLEvent (events n)) (times n)) (times n)
          hurl hvis heU heV
      refine ⟨st', vi', ?_, h2, ?_, ?_, ?_, ?_, ?_, ?_⟩
      · simp only [recordSeq, ← hprev, hrec]
        exact h1
      · rw [h3, hdv]
      · rw [h4, htp]
      · rw [h5, hvc]
      · simp only [recordSeq, ← hprev, hrec]
        rw [h6, hg]
      · simp only [recordSeq, ← hprev, hrec]
        rw [h7, htuv]
      · simp only [recordSeq, ← hprev, hrec]
        rw [h8, hcfg]
    · have hn0 : n = 0 := by omega
      subst hn0
      have hc : shouldCleanup (newTracker start) (mems 0) = false := by
        apply shouldCleanup_eq_false
        · exact hmem 0
        · simp [newTracker, defaultConfig]
      have hrec := recordEvent_ok (newTracker start) (events 0) (times 0) (mems 0)
        (hval 0) hc
      have heU : (setDefaults (normalizeURLEvent (events 0)) (times 0)).url =
          normalizeURLString U := by
        simp [setDefaults, normalizeURLEvent, hu 0]
      have heV : (setDefaults (normalizeURLEvent (events 0)) (times 0)).visitorID = V := by
        simp [setDefaults, normalizeURLEvent, hv 0]
      obtain ⟨st, vi, h1, h2, h3, h4, h5, h6, h7, h8⟩ :=
        applyEvent_fresh (newTracker start)
          (setDefaults (normalizeURLEvent (events 0)) (times 0)) (times 0) rfl rfl
      rw [heV] at h2 h6
      rw [heU] at h1
      refine ⟨st, vi, ?_, h2, h3, h4, h5, ?_, ?_, ?_⟩
      · simp only [recordSeq, hrec]
        exact h1
      · simp only [recordSeq, hrec]
        exact h6
      · simp only [recordSeq, hrec]
        rw [h7]
        simp [newTracker]
      · simp only [recordSeq, hrec]
        rw [h8]
        simp [newTracker]

/-! ## Characterizations of the validation chain -/

theorem visitorIDErrors_eq_nil_iff (e : NavigationEvent) :
    visitorIDErrors e = [] ↔
      e.visitorID ≠ "" ∧ minVisitorIDLength ≤ e.visitorID.length ∧
      e.visitorID.length ≤ maxVisitorIDLength ∧ visitorIDMatches e.visitorID = true := by
  unfold visitorIDErrors
  split_ifs with h1 h2 h3 <;> simp_all <;> omega

theorem urlErrors_eq_nil_iff (e : NavigationEvent) :
    urlErrors e = [] ↔
      e.url ≠ "" ∧ e.url.length ≤ maxURLLength ∧
      (parseRequestURIGo e.url).isSome := by
  unfold urlErrors
  split_ifs with h1 h2 h3
  · simp_all
  · refine ⟨fun h => absurd h (by simp), fun hc => absurd hc.2.1 (by omega)⟩
  · refine ⟨fun h => absurd h (by simp), fun hc => ?_⟩
    rw [Option.isNone_iff_eq_none.mp h3] at hc
    simp at hc
  · refine ⟨fun _ => ⟨by simpa using h1, Nat.le_of_not_lt h2, ?_⟩, fun _ => rfl⟩
    have hne : parseRequestURIGo e.url ≠ none := fun hn => h3 (by rw [hn]; rfl)
    exact Option.ne_none_iff_isSome.mp hne

theorem userAgentErrors_eq_nil_iff (e : NavigationEvent) :
    userAgentErrors e = [] ↔
      e.userAgent = "" ∨ e.userAgent.length ≤ maxUserAgentLength := by
  unfold userAgentErrors
  split_ifs with h1
  · simp only [Bool.and_eq_true, bne_iff_ne, decide_eq_true_eq] at h1
    refine ⟨fun h => absurd h (by simp), fun hc => ?_⟩
    rcases hc with hc | hc
    · exact h1.1 hc
    · omega
  · simp only [Bool.and_eq_true, bne_iff_ne, decide_eq_true_eq, not_and,
      Nat.not_lt] at h1
    refine ⟨fun _ => ?_, fun _ => rfl⟩
    by_cases hua : e.userAgent = ""
    · exact Or.inl hua
    · exact Or.inr (h1 hua)

theorem referrerErrors_eq_nil_iff (e : NavigationEvent) :
    referrerErrors e = [] ↔
      e.referrer = "" ∨ e.referrer.length ≤ maxReferrerLength := by
  unfold referrerErrors
  split_ifs with h1
  · simp only [Bool.and_eq_true, bne_iff_ne, decide_eq_true_eq] at h1
    refine ⟨fun h => absurd h (by simp), fun hc => ?_⟩
    rcases hc with hc | hc
    · exact h1.1 hc
    · omega
  · simp only [Bool.and_eq_true, bne_iff_ne, decide_eq_true_eq, not_and,
      Nat.not_lt] at h1
    refine ⟨fun _ => ?_, fun _ => rfl⟩
    by_cases hre : e.referrer = ""
    · exact Or.inl hre
    · exact Or.inr (h1 hre)

theorem validate_isSome_of_errors (e : NavigationEvent)
    (h : validationErrors e ≠ []) : (validate e).isSome := by
  unfold validate
  cases hv : validationErrors e with
  | nil => exact absurd hv h
  | cons a t => simp

theorem validate_eq_none_iff (e : NavigationEvent) :
    validate e = none ↔ validationErrors e = [] := by
  unfold validate
  cases hv : validationErrors e <;> simp

/-! ## Sortedness of the canonical query key order -/

/-- Adjacent keys are in Go's string order. -/
def SortedKeys (l : List String) : Prop :=
  List.Chain' (fun a b => strLe a b = true) l

theorem listCharLe_total (a b : List Char) :
    listCharLe a b = true ∨ listCharLe b a = true := by
  induction a generalizing b with
  | nil => exact Or.inl rfl
  | cons c t ih =>
    cases b with
    | nil => exact Or.inr rfl
    | cons d u =>
      by_cases h : c.val.toNat = d.val.toNat
      · rcases ih u with h' | h'
        · exact Or.inl (by simp [listCharLe, h, h'])
        · exact Or.inr (by simp [listCharLe, h.symm, h'])
      · by_cases hlt : c.val.toNat < d.val.toNat
        · exact Or.inl (by simp [listCharLe, h, hlt])
        · refine Or.inr ?_
          have h' : d.val.toNat ≠ c.val.toNat := fun hh => h hh.symm
          have hlt' : d.val.toNat < c.val.toNat := by omega
          simp [listCharLe, h', hlt']

theorem strLe_total (a b : String) : strLe a b = true ∨ strLe b a = true :=
  listCharLe_total a.data b.data

theorem chain_insertSorted (s : String) (l : List String)
    (h : SortedKeys l) : SortedKeys (insertSorted s l) := by
  induction l with
  | nil => simp [insertSorted, SortedKeys]
  | cons x t ih =>
    by_cases hs : strLe s x = true
    · rw [insertSorted, if_pos hs]
      exact List.Chain'.cons hs h
    · rw [insertSorted, if_neg hs]
      have hxs : strLe x s = true := (strLe_total s x).resolve_left hs
      have ht : SortedKeys t := h.tail
      have hins := ih ht
      cases t with
      | nil => exact List.Chain'.cons hxs hins
      | cons y u =>
        rw [insertSorted] at hins ⊢
        by_cases hy : strLe s y = true
        · rw [if_pos hy] at hins ⊢
          exact List.Chain'.cons hxs hins
        · rw [if_neg hy] at hins ⊢
          exact List.Chain'.cons (List.chain'_cons.mp h).1 hins

theorem chain_sortStrings (l : List String) : SortedKeys (sortStrings l) := by
  induction l with
  | nil => simp [sortStrings, SortedKeys]
  | cons x t ih => exact chain_insertSorted x _ ih

/-! ## Lock discipline of the two cleanup paths

`RecordEvent` takes `nt.mutex.Lock()` and releases it by `defer`; the
goroutine launched by `startCleanupRoutine` reacts to each ticker tick
by calling `shouldCleanup` and `performCleanup` directly, with no mutex
operation anywhere in its body.  The two call sequences below are
transliterated from those two functions; a missing acquire cannot be
argued away by any interleaving, so this static trace model settles
whether each eviction path runs under the write lock. -/

inductive TrackerAction
  | acquireWriteLock
  | releaseWriteLock
  | validateEventCall
  | normalizeEventCall
  | setDefaultsCall
  | shouldCleanupCall
  | performCleanupCall
  | applyWriteCall
deriving Repr, DecidableEq

/-- The body of `RecordEvent`: lock, validate, normalize, default,
opportunistic cleanup, write, deferred unlock. -/
def recordEventActions : List TrackerAction :=
  [.acquireWriteLock, .validateEventCall, .normalizeEventCall, .setDefaultsCall,
   .shouldCleanupCall, .performCleanupCall, .applyWriteCall, .releaseWriteLock]

/-- One tick of the goroutine started by `startCleanupRoutine`:
`shouldCleanup` then `performCleanup`, no lock calls. -/
def cleanupTickActions : List TrackerAction :=
  [.shouldCleanupCall, .performCleanupCall]

/-- The actions that mutate the shared aggregate state. -/
def mutatesAggregates : TrackerAction → Bool
  | .performCleanupCall => true
  | .applyWriteCall => true
  | _ => false

def writeLockHeldBefore (l : List TrackerAction) (i : Nat) : Bool :=
  ((l.take i).filter (· == TrackerAction.acquireWriteLock)).length >
    ((l.take i).filter (· == TrackerAction.releaseWriteLock)).length

/-- Whether every aggregate mutation in the call sequence executes with
the write lock held. -/
def mutationsUnderWriteLock (l : List TrackerAction) : Bool :=
  (List.range l.length).all fun i =>
    !(mutatesAggregates (l.getD i .acquireWriteLock)) || writeLockHeldBefore l i

/-! ## Concrete scenario used by the C1 claim -/

def cexEvent : NavigationEvent :=
  { visitorID := "visitor1", url := "https://example.com/page1" }

def cexT0 : Nat := 2 * nsPerDay

def cexURL : String := "https://example.com/page1"

/-- Two records of the same (visitor, URL) pair at time `cexT0` on a
fresh tracker. -/
def cexS2 : NavigationTracker :=
  (recordEvent (recordEvent (newTracker cexT0) cexEvent cexT0 0).tracker
    cexEvent cexT0 0).tracker

def cexNow3 : Nat := cexT0 + 25 * 60 * 60 * nsPerSecond

def cexMem3 : Nat := 200 * 1024 * 1024

/-- A third record of the same pair, 25 hours later, while the sampled
allocation exceeds the configured 100MB maximum: the opportunistic
cleanup inside `RecordEvent` evicts the stale single-visitor aggregate
and the write re-creates it. -/
def cexS3 : NavigationTracker :=
  (recordEvent cexS2 cexEvent cexNow3 cexMem3).tracker

def c1wSt : URLStats := (mapLookup cexURL cexS2.urlStats).getD {}

def c1wSt2 : URLStats :=
  (mapLookup cexURL (performCleanup cexS2 cexT0).urlStats).getD {}

/-! ## The claims -/

/-- C1 (amended): on every reachable tracker state, each stored URL
aggregate's DistinctVisitors counter equals the number of entries in
its visitor map and its TotalPageViews is at least DistinctVisitors;
and TotalPageViews never decreases across any single state
transformation — the write phase of `RecordEvent`, a cleanup pass, a
reset, a reconfiguration — in which the URL stays present.  (As
originally stated the claim fails: a full `RecordEvent` call whose
opportunistic cleanup evicts the stale URL re-creates it with
TotalPageViews 1, so the counter can drop across one `RecordEvent`
while the URL is present before and after; see the counterexample.) -/
theorem C1_invariants :
    (∀ nt, Reach nt → ∀ p ∈ nt.urlStats,
        p.2.distinctVisitors = p.2.visitors.length ∧
        p.2.distinctVisitors ≤ p.2.totalPageViews) ∧
    (∀ nt nt', Reach nt → MicroStep nt nt' → ∀ u st st',
        mapLookup u nt.urlStats = some st →
        mapLookup u nt'.urlStats = some st' →
        st.totalPageViews ≤ st'.totalPageViews) := by
  constructor
  · intro nt h p hp
    have hwf := reach_wf h
    exact ⟨(hwf.2 p hp).2.1, (hwf.2 p hp).2.2⟩
  · intro nt nt' hr hstep u st st' h h'
    exact views_mono_microStep (reach_wf hr) hstep h h'

/-- C1 (counterexample): the state `cexS2` — two records of one
(visitor, URL) pair — is reachable and holds the URL with TotalPageViews
2; one further `RecordEvent` of the same pair, 25 hours later under
memory pressure, leaves the URL present with TotalPageViews 1.  So
TotalPageViews decreased across a single operation of the claim's list
while the URL remained present in the store, refuting the monotonicity
conjunct as originally stated. -/
theorem C1_counterexample :
    Reach cexS2 ∧
    cexS3 = (recordEvent cexS2 cexEvent cexNow3 cexMem3).tracker ∧
    (mapLookup cexURL cexS2.urlStats).map URLStats.totalPageViews = some 2 ∧
    (mapLookup cexURL cexS3.urlStats).map URLStats.totalPageViews = some 1 := by
  refine ⟨?_, rfl, by decide, by decide⟩
  exact Reach.record _ _ _ (Reach.record _ _ _ (Reach.init cexT0))

/-- C1 (witness): the amended theorem applied at the concrete reachable
state `cexS2`, its stored aggregate, and a cleanup micro-step that
keeps the URL. -/
theorem C1_invariants_witness :
    c1wSt.distinctVisitors = c1wSt.visitors.length ∧
    c1wSt.distinctVisitors ≤ c1wSt.totalPageViews ∧
    c1wSt.totalPageViews ≤ c1wSt2.totalPageViews := by
  have h := C1_invariants
  have hr : Reach cexS2 := Reach.record _ _ _ (Reach.record _ _ _ (Reach.init cexT0))
  have h1 := h.1 cexS2 hr (cexURL, c1wSt) (by decide)
  have h2 := h.2 cexS2 (performCleanup cexS2 cexT0) hr
    (MicroStep.cleanup cexS2 cexT0) cexURL c1wSt c1wSt2 (by decide) (by decide)
  exact ⟨h1.1, h1.2, h2⟩

theorem getDetailedURLStats_eq (nt : NavigationTracker) (u : String) (st : URLStats)
    (h : mapLookup u nt.urlStats = some st) :
    getDetailedURLStats nt u =
      some { url := st.url,
             visitors := st.visitors.map (fun p => (p.1, copyVisitor p.2)),
             totalPageViews := st.totalPageViews,
             distinctVisitors := st.distinctVisitors,
             firstVisit := st.firstVisit, lastVisit := st.lastVisit,
             createdAt := st.createdAt, updatedAt := st.updatedAt } := by
  simp [getDetailedURLStats, h]

/-- C2: recording the same (visitor, URL) pair N ≥ 1 times on a fresh
tracker — with the sampled allocation below the configured maximum, so
the memory-based cleanup trigger stays quiet — yields distinct-visitor
count 1, total-page-view count N, and a visit count of N for that
visitor, all under the normalized form of the URL. -/
theorem C2_repeat_visits (start : Nat) (V U : String)
    (events : Nat → NavigationEvent) (times mems : Nat → Nat)
    (hv : ∀ i, (events i).visitorID = V) (hu : ∀ i, (events i).url = U)
    (hval : ∀ i, validate (events i) = none)
    (hmem : ∀ i, mems i ≤ defaultConfig.maxMemoryUsage)
    (N : Nat) (hN : 1 ≤ N) (qnow : Nat) :
    getDistinctVisitors (recordSeq (newTracker start) events times mems N)
      (normalizeURLString U) = 1 ∧
    (getVisitorStats (recordSeq (newTracker start) events times mems N)
      (normalizeURLString U) qnow).totalPageViews = N ∧
    ∃ st vi,
      getDetailedURLStats (recordSeq (newTracker start) events times mems N)
        (normalizeURLString U) = some st ∧
      mapLookup V st.visitors = some vi ∧ vi.visitCount = N := by
  obtain ⟨st, vi, hurl, hvis, hdv, htp, hvc, hg, htuv, hcfg⟩ :=
    recordSeq_same_shape start V U events times mems hv hu hval hmem N hN
  have hlk : mapLookup (normalizeURLString U)
      (recordSeq (newTracker start) events times mems N).urlStats = some st := by
    rw [hurl]
    simp [mapLookup]
  refine ⟨?_, ?_, ?_⟩
  · simp [getDistinctVisitors, hlk, hdv]
  · simp [getVisitorStats, hlk, htp]
  · refine ⟨_, copyVisitor vi, getDetailedURLStats_eq _ _ _ hlk, ?_, ?_⟩
    · rw [hvis]
      simp [mapLookup]
    · simpa [copyVisitor] using hvc

def c2wEvent : NavigationEvent :=
  { visitorID := "visitor1", url := "https://example.com/page1" }

/-- C2 (witness): the theorem at N = 2 with a concrete visitor, URL and
schedule. -/
theorem C2_repeat_visits_witness :
    getDistinctVisitors
      (recordSeq (newTracker 0) (fun _ => c2wEvent) (fun _ => 0) (fun _ => 0) 2)
      (normalizeURLString "https://example.com/page1") = 1 ∧
    (getVisitorStats
      (recordSeq (newTracker 0) (fun _ => c2wEvent) (fun _ => 0) (fun _ => 0) 2)
      (normalizeURLString "https://example.com/page1") 0).totalPageViews = 2 ∧
    ∃ st vi,
      getDetailedURLStats
        (recordSeq (newTracker 0) (fun _ => c2wEvent) (fun _ => 0) (fun _ => 0) 2)
        (normalizeURLString "https://example.com/page1") = some st ∧
      mapLookup "visitor1" st.visitors = some vi ∧ vi.visitCount = 2 := by
  have hval0 : validate c2wEvent = none := by decide
  have hmem0 : (0 : Nat) ≤ defaultConfig.maxMemoryUsage := by decide
  exact C2_repeat_visits 0 "visitor1" "https://example.com/page1" (fun _ => c2wEvent)
    (fun _ => 0) (fun _ => 0) (fun _ => rfl) (fun _ => rfl) (fun _ => hval0)
    (fun _ => hmem0) 2 (by decide) 0

/-- C3: one visitor recorded on two URLs whose normalized forms differ
contributes exactly one global unique visitor, while each URL's own
distinct-visitor count is 1. -/
theorem C3_cross_url_independence (start : Nat) (V A B : String)
    (eA eB : NavigationEvent) (tA tB mA mB qm : Nat)
    (hAv : eA.visitorID = V) (hAu : eA.url = A) (hAval : validate eA = none)
    (hBv : eB.visitorID = V) (hBu : eB.url = B) (hBval : validate eB = none)
    (hAB : normalizeURLString A ≠ normalizeURLString B)
    (hmA : mA ≤ defaultConfig.maxMemoryUsage)
    (hmB : mB ≤ defaultConfig.maxMemoryUsage) :
    (getSystemMetrics
      (recordEvent (recordEvent (newTracker start) eA tA mA).tracker eB tB mB).tracker
      qm).totalUniqueVisitors = 1 ∧
    getDistinctVisitors
      (recordEvent (recordEvent (newTracker start) eA tA mA).tracker eB tB mB).tracker
      (normalizeURLString A) = 1 ∧
    getDistinctVisitors
      (recordEvent (recordEvent (newTracker start) eA tA mA).tracker eB tB mB).tracker
      (normalizeURLString B) = 1 := by
  have hc1 : shouldCleanup (newTracker start) mA = false :=
    shouldCleanup_eq_false _ _ hmA (by simp [newTracker, defaultConfig])
  have hrec1 := recordEvent_ok (newTracker start) eA tA mA hAval hc1
  obtain ⟨stA, viA, h1, h2, h3, h4, h5, h6, h7, h8⟩ :=
    applyEvent_fresh (newTracker start) (setDefaults (normalizeURLEvent eA) tA) tA rfl rfl
  have he1u : (setDefaults (normalizeURLEvent eA) tA).url = normalizeURLString A := by
    simp [setDefaults, normalizeURLEvent, hAu]
  have he1v : (setDefaults (normalizeURLEvent eA) tA).visitorID = V := by
    simp [setDefaults, normalizeURLEvent, hAv]
  rw [he1u] at h1
  rw [he1v] at h2 h6
  set s1 := (recordEvent (newTracker start) eA tA mA).tracker with hs1
  have hs1url : s1.urlStats = [(normalizeURLString A, stA)] := by
    rw [hs1, hrec1]
    exact h1
  have hs1g : s1.globalVisitors = [V] := by
    rw [hs1, hrec1]
    exact h6
  have hs1tuv : s1.metrics.totalUniqueVisitors = 1 := by
    rw [hs1, hrec1]
    show (applyEvent _ _ _).metrics.totalUniqueVisitors = 1
    rw [h7]
    simp [newTracker]
  have hs1cfg : s1.config = defaultConfig := by
    rw [hs1, hrec1]
    show (applyEvent _ _ _).config = defaultConfig
    rw [h8]
    simp [newTracker]
  have hc2 : shouldCleanup s1 mB = false := by
    apply shouldCleanup_eq_false
    · rw [hs1cfg]
      exact hmB
    · rw [hs1cfg, hs1url]
      simp [defaultConfig]
  have hrec2 := recordEvent_ok s1 eB tB mB hBval hc2
  have he2u : (setDefaults (normalizeURLEvent eB) tB).url = normalizeURLString B := by
    simp [setDefaults, normalizeURLEvent, hBu]
  have he2v : (setDefaults (normalizeURLEvent eB) tB).visitorID = V := by
    simp [setDefaults, normalizeURLEvent, hBv]
  obtain ⟨stB, g1, g2, g3, g4, g5, g6⟩ :=
    applyEvent_newURL_oldVisitor (normalizeURLString A) stA s1
      (setDefaults (normalizeURLEvent eB) tB) tB hs1url
      (by rw [he2u]; exact fun hh => hAB hh.symm)
      (by rw [he2v, hs1g]; simp)
  rw [he2u] at g1
  set s2 := (recordEvent s1 eB tB mB).tracker with hs2
  have hs2eq : s2 = applyEvent s1 (setDefaults (normalizeURLEvent eB) tB) tB := by
    rw [hs2, hrec2]
  have hs2url : s2.urlStats =
      [(normalizeURLString A, stA), (normalizeURLString B, stB)] := by
    rw [hs2eq]
    exact g1
  have hAB' : (normalizeURLString A == normalizeURLString B) = false :=
    beq_eq_false_iff_ne.mpr hAB
  refine ⟨?_, ?_, ?_⟩
  · show s2.metrics.totalUniqueVisitors = 1
    rw [hs2eq, g5, hs1tuv]
  · simp [getDistinctVisitors, hs2url, mapLookup, h3]
  · simp [getDistinctVisitors, hs2url, mapLookup, hAB', g2]

def c3wEventB : NavigationEvent :=
  { visitorID := "visitor1", url := "https://example.com/page2" }

/-- C3 (witness): the theorem at a concrete visitor and two concrete
URLs. -/
theorem C3_cross_url_independence_witness :
    (getSystemMetrics
      (recordEvent (recordEvent (newTracker 0) c2wEvent 0 0).tracker c3wEventB 0 0).tracker
      0).totalUniqueVisitors = 1 ∧
    getDistinctVisitors
      (recordEvent (recordEvent (newTracker 0) c2wEvent 0 0).tracker c3wEventB 0 0).tracker
      (normalizeURLString "https://example.com/page1") = 1 ∧
    getDistinctVisitors
      (recordEvent (recordEvent (newTracker 0) c2wEvent 0 0).tracker c3wEventB 0 0).tracker
      (normalizeURLString "https://example.com/page2") = 1 :=
  C3_cross_url_independence 0 "visitor1" "https://example.com/page1"
    "https://example.com/page2" c2wEvent c3wEventB 0 0 0 0 0
    rfl rfl (by decide) rfl rfl (by decide) (by decide) (by decide) (by decide)

/-- C4 (counterexample): the URL `http://h/p?a#%zz` passes validation —
`ParseRequestURI` puts the malformed escape `%zz` in the raw query,
which it never validates — yet `url.Parse` fails on it, because the
fragment split happens first and `%zz` is then an invalid fragment
escape.  `NormalizeURL` therefore returns early and the stored URL
keeps its fragment, refuting "strips any fragment component" for
validation-passing URLs as stated. -/
theorem C4_counterexample :
    validate { visitorID := "v", url := "http://h/p?a#%zz" } = none ∧
    urlParseGo "http://h/p?a#%zz" = none ∧
    normalizeURLString "http://h/p?a#%zz" = "http://h/p?a#%zz" ∧
    ("http://h/p?a#%zz".data.contains '#') = true := by
  exact ⟨by decide, by decide, by decide, by decide⟩

/-- C4 (amended): for every URL string the normalizer's parser
(`url.Parse`) accepts — on a parse failure `NormalizeURL` leaves the
URL unchanged, the correction forced by the counterexample — the
normalization strips the fragment, lower-cases the scheme and the
host, re-encodes the query canonically with the keys in sorted order,
strips a single trailing slash unless the path is exactly "/", and
otherwise leaves the path untouched (case preserved). -/
theorem C4_normalization (s : String) (u : GoURL) (h : urlParseGo s = some u) :
    normalizeURLString s = urlString (normalizeURLCore u) ∧
    (normalizeURLCore u).fragment = "" ∧
    (normalizeURLCore u).scheme = strToLower u.scheme ∧
    (normalizeURLCore u).host = strToLower u.host ∧
    (normalizeURLCore u).rawQuery = encodeValues (parseQueryGo u.rawQuery) ∧
    SortedKeys (sortStrings ((parseQueryGo u.rawQuery).map Prod.fst)) ∧
    (normalizeURLCore u).path =
      (if u.path != "/" && strEndsWith u.path "/" then strDropRight u.path 1
       else u.path) := by
  refine ⟨?_, rfl, rfl, rfl, rfl, chain_sortStrings _, rfl⟩
  by_cases hs : s = ""
  · subst hs
    have h0 : urlParseGo "" = some ({} : GoURL) := by decide
    rw [h0] at h
    injection h with h
    rw [← h]
    decide
  · unfold normalizeURLString
    rw [if_neg (by simpa using hs), h]

def c4wString : String := "https://EXAMPLE.com/Path/?b=2&a=1#frag"

def c4wURL : GoURL := (urlParseGo c4wString).getD {}

/-- C4 (witness): the amended theorem at a concrete URL exercising every
clause: upper-case host, trailing slash, unsorted query, fragment,
mixed-case path. -/
theorem C4_normalization_witness :
    normalizeURLString c4wString = urlString (normalizeURLCore c4wURL) ∧
    (normalizeURLCore c4wURL).fragment = "" ∧
    (normalizeURLCore c4wURL).scheme = strToLower c4wURL.scheme ∧
    (normalizeURLCore c4wURL).host = strToLower c4wURL.host ∧
    (normalizeURLCore c4wURL).rawQuery = encodeValues (parseQueryGo c4wURL.rawQuery) ∧
    SortedKeys (sortStrings ((parseQueryGo c4wURL.rawQuery).map Prod.fst)) ∧
    (normalizeURLCore c4wURL).path =
      (if c4wURL.path != "/" && strEndsWith c4wURL.path "/" then
        strDropRight c4wURL.path 1
       else c4wURL.path) :=
  C4_normalization c4wString c4wURL (by decide)

/-- C5 (counterexample): the rooted path `/some/path` has neither scheme
nor host, but `ParseRequestURI` accepts rooted paths, so `Validate`
passes and `RecordEvent` records the event instead of rejecting it. -/
theorem C5_counterexample :
    (recordEvent (newTracker 0) { visitorID := "v", url := "/some/path" } 0 0).error
      = none ∧
    getDistinctVisitors
      (recordEvent (newTracker 0) { visitorID := "v", url := "/some/path" } 0 0).tracker
      "/some/path" = 1 := by
  exact ⟨by decide, by decide⟩

/-- C5 (amended): `RecordEvent` rejects an event — with an error and no
state change — exactly when its URL fails Go's `ParseRequestURI`; that
check accepts every rooted path, so "absolute URI with non-empty
scheme and host" is not what the code enforces.  This theorem is the
rejection half: a `ParseRequestURI` failure always rejects. -/
theorem C5_invalid_url_rejected (nt : NavigationTracker) (e : NavigationEvent)
    (now memAlloc : Nat) (h : parseRequestURIGo e.url = none) :
    (recordEvent nt e now memAlloc).error.isSome ∧
    (recordEvent nt e now memAlloc).tracker = nt := by
  have hurl : urlErrors e ≠ [] := by
    intro h0
    have h1 := ((urlErrors_eq_nil_iff e).mp h0).2.2
    rw [h] at h1
    simp at h1
  have hne : validationErrors e ≠ [] := by
    unfold validationErrors
    intro h0
    rcases List.append_eq_nil.mp h0 with ⟨h0, h0'⟩
    rcases List.append_eq_nil.mp h0 with ⟨h0, h0''⟩
    rcases List.append_eq_nil.mp h0 with ⟨_, h0'''⟩
    exact hurl h0'''
  have hv := validate_isSome_of_errors e hne
  exact ⟨(recordEvent_err nt e now memAlloc hv).1,
    (recordEvent_err nt e now memAlloc hv).2.1⟩

/-- C5 (witness): the amended theorem at the concrete URL `not-a-url`,
which is neither an absolute URI nor a rooted path. -/
theorem C5_invalid_url_rejected_witness :
    (recordEvent (newTracker 0) { visitorID := "v", url := "not-a-url" } 0 0).error.isSome ∧
    (recordEvent (newTracker 0) { visitorID := "v", url := "not-a-url" } 0 0).tracker
      = newTracker 0 :=
  C5_invalid_url_rejected (newTracker 0) { visitorID := "v", url := "not-a-url" } 0 0
    (by decide)

/-- C6: an event failing any validation rule — empty visitor id, length
outside [1, 255], forbidden characters, empty or oversize or unparsable
URL, oversize user agent or referrer — is rejected with an error and
the tracker state is returned exactly as it was: no aggregate, visitor
entry, global-visitor entry or metric changes. -/
theorem C6_validation_failure_no_mutation (nt : NavigationTracker)
    (e : NavigationEvent) (now memAlloc : Nat)
    (h : e.visitorID = "" ∨
      ¬(minVisitorIDLength ≤ e.visitorID.length ∧
        e.visitorID.length ≤ maxVisitorIDLength) ∨
      visitorIDMatches e.visitorID = false ∨
      e.url = "" ∨ maxURLLength < e.url.length ∨
      parseRequestURIGo e.url = none ∨
      (e.userAgent ≠ "" ∧ maxUserAgentLength < e.userAgent.length) ∨
      (e.referrer ≠ "" ∧ maxReferrerLength < e.referrer.length)) :
    (recordEvent nt e now memAlloc).error.isSome ∧
    (recordEvent nt e now memAlloc).tracker = nt := by
  have hne : validationErrors e ≠ [] := by
    unfold validationErrors
    intro h0
    rcases List.append_eq_nil.mp h0 with ⟨h0, hD⟩
    rcases List.append_eq_nil.mp h0 with ⟨h0, hC⟩
    rcases List.append_eq_nil.mp h0 with ⟨hA, hB⟩
    have hA' := (visitorIDErrors_eq_nil_iff e).mp hA
    have hB' := (urlErrors_eq_nil_iff e).mp hB
    have hC' := (userAgentErrors_eq_nil_iff e).mp hC
    have hD' := (referrerErrors_eq_nil_iff e).mp hD
    rcases h with h | h | h | h | h | h | h | h
    · exact hA'.1 h
    · exact h ⟨hA'.2.1, hA'.2.2.1⟩
    · rw [hA'.2.2.2] at h
      cases h
    · exact hB'.1 h
    · have := hB'.2.1
      omega
    · rw [h] at hB'
      simp at hB'
    · rcases hC' with hc | hc
      · exact h.1 hc
      · have := h.2
        omega
    · rcases hD' with hd | hd
      · exact h.1 hd
      · have := h.2
        omega
  have hv := validate_isSome_of_errors e hne
  exact ⟨(recordEvent_err nt e now memAlloc hv).1,
    (recordEvent_err nt e now memAlloc hv).2.1⟩

/-- C6 (witness): the theorem at a visitor id containing a space. -/
theorem C6_validation_failure_no_mutation_witness :
    (recordEvent (newTracker 0)
      { visitorID := "has space", url := "https://example.com/page1" } 0 0).error.isSome ∧
    (recordEvent (newTracker 0)
      { visitorID := "has space", url := "https://example.com/page1" } 0 0).tracker
      = newTracker 0 :=
  C6_validation_failure_no_mutation (newTracker 0)
    { visitorID := "has space", url := "https://example.com/page1" } 0 0
    (Or.inr (Or.inr (Or.inl (by decide))))

/-- C7: on any state, a URL absent from the store gets a zero-valued
summary from `GetVisitorStats` (URL echoed, both counters 0, zero
timestamps except LastUpdated = now) while `GetDetailedURLStats`
returns the explicit absence signal `none`. -/
theorem C7_absence_asymmetry (nt : NavigationTracker) (url : String) (now : Nat)
    (h : mapLookup url nt.urlStats = none) :
    getVisitorStats nt url now =
      { url := url, distinctVisitors := 0, totalPageViews := 0,
        lastUpdated := now, firstVisit := 0, lastVisit := 0 } ∧
    getDetailedURLStats nt url = none := by
  constructor <;> simp [getVisitorStats, getDetailedURLStats, h]

/-- C7 (witness): the theorem on a fresh store and an unknown URL. -/
theorem C7_absence_asymmetry_witness :
    getVisitorStats (newTracker 0) "https://example.com/unknown" 5 =
      { url := "https://example.com/unknown", distinctVisitors := 0,
        totalPageViews := 0, lastUpdated := 5, firstVisit := 0, lastVisit := 0 } ∧
    getDetailedURLStats (newTracker 0) "https://example.com/unknown" = none :=
  C7_absence_asymmetry (newTracker 0) "https://example.com/unknown" 5 (by decide)

/-- C8: a cleanup pass evicts exactly the aggregates that have fewer
than two distinct visitors and whose last visit is more than 24 hours
before the pass's current time; every other (url, aggregate) entry — in
particular every aggregate with two or more distinct visitors, however
old — survives in the store unchanged. -/
theorem C8_eviction_policy (nt : NavigationTracker) (now : Nat) (p : String × URLStats) :
    p ∈ (performCleanup nt now).urlStats ↔
      p ∈ nt.urlStats ∧
      ¬(p.2.distinctVisitors < 2 ∧
        (p.2.lastVisit : Int) < (now : Int) - (nsPerDay : Int)) := by
  constructor
  · intro hm
    have hf := List.mem_filter.mp hm
    refine ⟨hf.1, ?_⟩
    intro hcon
    have hb : evictable p.2 now = true := by
      simp [evictable, hcon.1, hcon.2]
    rw [hb] at hf
    simp at hf
  · rintro ⟨hm, hnot⟩
    refine List.mem_filter.mpr ⟨hm, ?_⟩
    have hb : evictable p.2 now = false := by
      simp only [evictable, Bool.and_eq_false_iff, decide_eq_false_iff_not]
      by_cases h2 : p.2.distinctVisitors < 2
      · exact Or.inr fun hlt => hnot ⟨h2, hlt⟩
      · exact Or.inl h2
    simp [hb]

/-- C9: in the source, `RecordEvent` performs its cleanup and write
while the exclusive write lock is held, but the periodic timer tick in
`startCleanupRoutine` calls `shouldCleanup` and `performCleanup`
without any lock operation, so the timer-driven eviction pass does NOT
run under the write lock; its map iteration and deletions race with
concurrent `RecordEvent` map writes.  The claim (and the spec's
atomicity guarantee) describes the evident intent; the goroutine body
is missing the lock acquisition. -/
theorem C9_cleanup_lock_discipline :
    mutationsUnderWriteLock recordEventActions = true ∧
    mutationsUnderWriteLock cleanupTickActions = false := by
  exact ⟨by decide, by decide⟩

/-- C10: a successful `RecordEvent` hands the caller's event back
mutated: the URL replaced by its normalized form, a zero timestamp
replaced by this call's current time, and an empty event id replaced by
a freshly generated identifier (the ingest handler reads `event_id` and
`timestamp` from the caller's event after the call). -/
theorem C10_event_mutated_in_place (nt : NavigationTracker) (e : NavigationEvent)
    (now memAlloc : Nat) (h : (recordEvent nt e now memAlloc).error = none) :
    (recordEvent nt e now memAlloc).event =
      { e with
        url := normalizeURLString e.url,
        timestamp := if e.timestamp == 0 then now else e.timestamp,
        eventID := if e.eventID == "" then generateEventID now else e.eventID } := by
  unfold recordEvent at h ⊢
  cases hv : validate e with
  | some msg =>
    rw [hv] at h
    simp at h
  | none => rfl

def c10wEvent : NavigationEvent :=
  { visitorID := "visitor1", url := "https://EXAMPLE.com/A/?b=2&a=1#frag" }

/-- C10 (witness): the theorem at a concrete accepted event with an
unset timestamp and event id; the returned event carries the normalized
URL, the call time, and a generated id. -/
theorem C10_event_mutated_in_place_witness :
    (recordEvent (newTracker 0) c10wEvent 7 0).event =
      { c10wEvent with
        url := normalizeURLString c10wEvent.url,
        timestamp := if c10wEvent.timestamp == 0 then 7 else c10wEvent.timestamp,
        eventID := if c10wEvent.eventID == "" then generateEventID 7
                   else c10wEvent.eventID } :=
  C10_event_mutated_in_place (newTracker 0) c10wEvent 7 0 (by decide)

end NavTracker
